import Mathlib

/-!
Verification of the synchronization engine of `create-dropbox-backup-folder`
(package `backup`, file `internal/backup/engine.go`).

Go strings are modeled as lists of characters, Go `time.Time` as `Int`
(with `0` reserved for Go's zero `time.Time`, `After` as `>`, `Equal` as `=`),
Go `uint64` as `Nat` and `int64` as `Int` with the explicit wrap-around
conversion used by `stat.Size() == int64(remoteFile.Size)`.

`filepath.Match` and `filepath.Join` belong to the Go standard library, not to
this repository; no claim below depends on their internals, so they are taken
as arbitrary function parameters of the definitions that call them.
-/

namespace DropboxBackup

/-- Go strings, modeled as lists of characters. -/
abbrev GoStr := List Char

/-- strings.HasPrefix. -/
def hasPrefix (s pre : GoStr) : Bool := pre.isPrefixOf s

/-- strings.HasSuffix. -/
def hasSuffix (s suf : GoStr) : Bool := suf.isSuffixOf s

/-- strings.TrimPrefix: drops `pre` from the front of `s` when present. -/
def trimPrefix (s pre : GoStr) : GoStr :=
  if pre.isPrefixOf s then s.drop pre.length else s

/-- strings.Contains: substring test (`sub` occurs contiguously in `s`). -/
def strContains (s sub : GoStr) : Bool :=
  match s with
  | [] => sub.isPrefixOf []
  | c :: t => sub.isPrefixOf (c :: t) || strContains t sub

/-- filepath.Base (Unix rules): strip trailing separators, take the part after
the last separator; empty input gives ".", an all-separator input gives "/". -/
def filepathBase (path : GoStr) : GoStr :=
  if path = [] then ['.']
  else
    let p := (path.reverse.dropWhile (fun c => c = '/')).reverse
    let base := (p.reverse.takeWhile (fun c => c ≠ '/')).reverse
    if base = [] then ['/'] else base

/-- Go's `int64(u)` conversion of a `uint64` value, as used in
`stat.Size() == int64(remoteFile.Size)`: wraps modulo `2^64` into
`[-2^63, 2^63)`. -/
def goInt64OfUInt64 (n : Nat) : Int :=
  if n % 2 ^ 64 < 2 ^ 63 then ((n % 2 ^ 64 : Nat) : Int)
  else ((n % 2 ^ 64 : Nat) : Int) - 2 ^ 64

/-- dropbox.FileInfo, the remote entry record (fields used by the engine).
`modTime = 0` encodes Go's zero `time.Time` (`ModTime.IsZero()`). -/
structure FileInfo where
  path : GoStr
  size : Nat
  modTime : Int
  isFolder : Bool
deriving DecidableEq

/-- The result of a successful `os.Stat(localPath)`: the local file's size
(`int64`) and modification time. -/
structure LocalStat where
  size : Int
  modTime : Int
deriving DecidableEq

/-- Engine.shouldSkipFile. `stat` is the outcome of `os.Stat(localPath)`:
`none` when the local file does not exist (any stat error), `some st`
otherwise. Mirrors the source: local-newer check first (guarded by a non-zero
remote time), then the equal-size-and-equal-mtime check (also guarded by a
non-zero remote time). -/
def shouldSkipFile (stat : Option LocalStat) (remoteFile : FileInfo) : Bool :=
  match stat with
  | none => false
  | some st =>
    if ¬ remoteFile.modTime = 0 ∧ remoteFile.modTime < st.modTime then true
    else if st.size = goInt64OfUInt64 remoteFile.size ∧ ¬ remoteFile.modTime = 0 ∧
        st.modTime = remoteFile.modTime then true
    else false

/-- Engine.isInExcludeFile, exactly as in the source: a stub that never reads
the referenced exclusion file and always answers `false` (the source comment
says "This is a simplified implementation. In a real implementation, you would
read the exclude file and check if the path matches any patterns in it"). -/
def isInExcludeFile (_path _excludeFile : GoStr) : Bool := false

/-- The decision one iteration of Engine.shouldExclude's loop makes for a
single pattern: `@`-indirection first, then directory patterns (trailing
separator: prefix of the path, or appearing after a separator inside it), then
a glob match (`fm` = filepath.Match) against the base name, then against the
full path. -/
def ruleMatches (fm : GoStr → GoStr → Bool) (pattern path : GoStr) : Bool :=
  if hasPrefix pattern ['@'] then isInExcludeFile path (trimPrefix pattern ['@'])
  else if hasSuffix pattern ['/'] then
    hasPrefix path pattern || strContains path ('/' :: pattern)
  else if fm pattern (filepathBase path) then true
  else fm pattern path

/-- Engine.shouldExclude, written as the source's loop over the configured
patterns: each iteration either returns `true` or falls through to the next
pattern; an exhausted loop returns `false`. -/
def shouldExclude (fm : GoStr → GoStr → Bool) (exclude : List GoStr)
    (path : GoStr) : Bool :=
  match exclude with
  | [] => false
  | pattern :: rest =>
    if hasPrefix pattern ['@'] then
      if isInExcludeFile path (trimPrefix pattern ['@']) then true
      else shouldExclude fm rest path
    else if hasSuffix pattern ['/'] then
      if hasPrefix path pattern || strContains path ('/' :: pattern) then true
      else shouldExclude fm rest path
    else if fm pattern (filepathBase path) then true
    else if fm pattern path then true
    else shouldExclude fm rest path

/-- Engine.filterFiles: fast path returning the input slice when no exclusion
rules are configured, otherwise the files whose paths are not excluded. -/
def filterFiles (fm : GoStr → GoStr → Bool) (exclude : List GoStr)
    (files : List FileInfo) : List FileInfo :=
  if exclude.isEmpty then files
  else files.filter (fun f => ! shouldExclude fm exclude f.path)

/-- The division loop of formatBytes: `div, exp := 1024, 0;
for n := bytes/1024; n >= 1024; n /= 1024 { div *= 1024; exp++ }`.
Returns the final `(div, exp)`. -/
def fbLoop (n div exp : Nat) : Nat × Nat :=
  if h : 1024 ≤ n then fbLoop (n / 1024) (div * 1024) (exp + 1) else (div, exp)
termination_by n
decreasing_by exact Nat.div_lt_self (by omega) (by norm_num)

/-- The unit-letter string "KMGTPE" indexed by the loop's exponent. -/
def unitChars : GoStr := ['K', 'M', 'G', 'T', 'P', 'E']

/-- A one-decimal rendering of `bytes / div`, in exact fixed-point arithmetic.
Go renders `float64(bytes)/float64(div)` with `%.1f`; the claims below concern
only totality and the bound on the unit index, never the printed digits, so
the float rounding is modeled by integer division. -/
def fmtOneDecimal (bytes div : Nat) : String :=
  let scaled := bytes * 10 / div
  toString (scaled / 10) ++ "." ++ toString (scaled % 10)

/-- formatBytes. Values below 1024 are printed in bytes; otherwise the loop
computes the divisor and exponent and the unit letter is `"KMGTPE"[exp]` —
an indexing operation that panics in Go when `exp` is out of bounds, modeled
here as returning `none`. -/
def formatBytes (bytes : Nat) : Option String :=
  if bytes < 1024 then some (toString bytes ++ " B")
  else
    match fbLoop (bytes / 1024) 1024 0 with
    | (div, exp) =>
      match unitChars[exp]? with
      | some c => some (fmtOneDecimal bytes div ++ " " ++ String.mk [c] ++ "B")
      | none => none

/-- An entry seen by `filepath.Walk` over the local backup tree: an absolute
local path and whether it is a directory. -/
structure WalkEntry where
  path : GoStr
  isDir : Bool
deriving DecidableEq

/-- The local path the engine derives for a remote entry, in both
Engine.downloadFile and Engine.deleteOrphanedFiles:
`filepath.Join(e.config.BackupDir, strings.TrimPrefix(file.Path, "/"))`.
`join` stands for filepath.Join (Go standard library). -/
def localPathOf (join : GoStr → GoStr → GoStr) (backupDir remotePath : GoStr) :
    GoStr :=
  join backupDir (trimPrefix remotePath ['/'])

/-- The lookup set built by Engine.deleteOrphanedFiles from the filtered
remote listing (`dropboxFileMap`): the derived local path of every entry,
folders included. -/
def dropboxFileMap (join : GoStr → GoStr → GoStr) (backupDir : GoStr)
    (files : List FileInfo) : List GoStr :=
  files.map (fun f => localPathOf join backupDir f.path)

/-- The local paths Engine.downloadFiles can write in a run: the derived local
path of each non-folder entry of the filtered listing (folders are skipped by
the download loop; a worker writes only at its entry's derived path). -/
def downloadPlanPaths (join : GoStr → GoStr → GoStr) (backupDir : GoStr)
    (files : List FileInfo) : List GoStr :=
  (files.filter (fun f => ! f.isFolder)).map
    (fun f => localPathOf join backupDir f.path)

/-- The paths Engine.deleteOrphanedFiles removes, given the walked local tree:
every walked non-directory entry whose path is absent from `dropboxFileMap`. -/
def orphanDeletions (join : GoStr → GoStr → GoStr) (backupDir : GoStr)
    (files : List FileInfo) (walked : List WalkEntry) : List GoStr :=
  (walked.filter
      (fun w => ! w.isDir &&
        ! (dropboxFileMap join backupDir files).contains w.path)).map
    (fun w => w.path)

/-- The Dropbox client as Engine.Run observes it during the listing phase:
the token-validity check, and the outcome of each successive RefreshToken and
ListAll call (numbered from 0 in call order). -/
structure ClientOracle where
  tokenValid : Bool
  refreshOutcome : Nat → Except String Unit
  listOutcome : Nat → Except String (List FileInfo)

/-- What the listing phase of Engine.Run produced: its result and how many
ListAll and RefreshToken calls were made in total. -/
structure ListingResult where
  result : Except String (List FileInfo)
  listCalls : Nat
  refreshCalls : Nat

/-- The listing part of Engine.Run (lines 89–104): call ListAll; on failure
refresh the token (failure of the refresh is fatal) and retry ListAll exactly
once (a second listing failure is fatal). `preRefreshes` counts the
RefreshToken calls already made by the token-validity check. -/
def listingLoop (c : ClientOracle) (preRefreshes : Nat) : ListingResult :=
  match c.listOutcome 0 with
  | Except.ok files => ⟨Except.ok files, 1, preRefreshes⟩
  | Except.error e =>
    match c.refreshOutcome preRefreshes with
    | Except.error _ =>
      ⟨Except.error ("failed to list Dropbox files and refresh token: " ++ e),
        1, preRefreshes + 1⟩
    | Except.ok _ =>
      match c.listOutcome 1 with
      | Except.ok files => ⟨Except.ok files, 2, preRefreshes + 1⟩
      | Except.error e2 =>
        ⟨Except.error ("failed to list Dropbox files after token refresh: " ++ e2),
          2, preRefreshes + 1⟩

/-- Engine.Run up to the end of the listing phase (lines 82–104): the
token-validity check with its own refresh (whose failure aborts the run before
any listing), then the listing with its single retry-after-refresh. -/
def runListingPhase (c : ClientOracle) : ListingResult :=
  if c.tokenValid then listingLoop c 0
  else
    match c.refreshOutcome 0 with
    | Except.error e => ⟨Except.error ("failed to refresh token: " ++ e), 0, 1⟩
    | Except.ok _ => listingLoop c 1

/-- A download worker goroutine of Engine.downloadFiles is either still in
flight or finished, successfully or with an error. -/
inductive WStatus where
  | pending : WStatus
  | finished : Bool → WStatus
deriving DecidableEq

/-- The state of Engine.downloadFiles' coordination: the workers, the contents
of the buffered error channel (`errChan`, capacity `len(files)`, so sends
never block; a failed worker `i` sends error `i`), whether the closer
goroutine (`wg.Wait(); close(errChan)`) has closed the channel, and what the
collecting loop `for err := range errChan` has returned — `none` while it is
still receiving, `some (some i)` once it returned worker `i`'s error, and
`some none` once it fell off the closed empty channel and returned nil. -/
structure DLState where
  workers : List WStatus
  buffer : List Nat
  closed : Bool
  ret : Option (Option Nat)
deriving DecidableEq

/-- One scheduler step of the downloadFiles coordination: a pending worker
finishes (sending its error on failure), the closer closes the channel after
every worker finished, or the collecting loop receives — a buffered error
(returning it at once, per `return err`) or, once the channel is closed and
drained, the close (returning nil). No step aborts a sibling worker. -/
inductive DLStep : DLState → DLState → Prop where
  | finishOk (s : DLState) (i : Nat) (h : s.workers.get? i = some WStatus.pending) :
      DLStep s ⟨s.workers.set i (WStatus.finished true), s.buffer, s.closed, s.ret⟩
  | finishErr (s : DLState) (i : Nat) (h : s.workers.get? i = some WStatus.pending) :
      DLStep s ⟨s.workers.set i (WStatus.finished false), s.buffer ++ [i],
        s.closed, s.ret⟩
  | closeChan (s : DLState) (h1 : s.closed = false)
      (h2 : ∀ w ∈ s.workers, w ≠ WStatus.pending) :
      DLStep s ⟨s.workers, s.buffer, true, s.ret⟩
  | recvErr (s : DLState) (i : Nat) (rest : List Nat) (h1 : s.ret = none)
      (h2 : s.buffer = i :: rest) :
      DLStep s ⟨s.workers, rest, s.closed, some (some i)⟩
  | recvClosed (s : DLState) (h1 : s.ret = none) (h2 : s.buffer = [])
      (h3 : s.closed = true) :
      DLStep s ⟨s.workers, [], s.closed, some none⟩

/-- The initial downloadFiles state for `n` spawned workers. -/
def DLInit (n : Nat) : DLState :=
  ⟨List.replicate n WStatus.pending, [], false, none⟩

/-- The states an execution of downloadFiles with `n` workers can reach. -/
abbrev DLReach (n : Nat) (s : DLState) : Prop :=
  Relation.ReflTransGen DLStep (DLInit n) s

/-- Some download worker has failed. -/
abbrev HasFailed (s : DLState) : Prop :=
  ∃ i, s.workers.get? i = some (WStatus.finished false)

/-- Every download worker has finished. -/
abbrev AllFinished (s : DLState) : Prop :=
  ∀ w ∈ s.workers, w ≠ WStatus.pending

/-- The inductive invariant of the downloadFiles coordination: the channel is
closed only after every worker finished; a nil return means the channel was
closed and drained; and until the collecting loop returns an error, the
buffer is empty exactly when no worker has failed. -/
structure DLInv (s : DLState) : Prop where
  closedDone : s.closed = true → AllFinished s
  retNil : s.ret = some none → s.closed = true ∧ s.buffer = []
  bufferIff : s.ret = none ∨ s.ret = some none → (s.buffer = [] ↔ ¬ HasFailed s)

/-- The state downloadFiles ends in when its single worker succeeds: used to
instantiate the nil-return theorem. -/
def dlNilFinal : DLState := ⟨[WStatus.finished true], [], true, some none⟩

/-- A state of the two-worker run in which worker 0 failed, its error was
already received and returned by the collecting loop, and worker 1 is still
in flight (the channel is not even closed yet). -/
def dlEarlyReturn : DLState :=
  ⟨[WStatus.finished false, WStatus.pending], [], false, some (some 0)⟩

/-- A non-atomic Go increment (`stats.DownloadedFiles++`) by two concurrent
download workers: the shared counter and each worker's private register
holding the value it read (none before its load). Engine.downloadFile
mutates the shared Stats fields with no mutex or atomic. -/
structure RaceState where
  counter : Nat
  reg1 : Option Nat
  reg2 : Option Nat
deriving DecidableEq

/-- The four machine-level actions of the two unsynchronized increments:
each worker loads the counter into its register, then stores register + 1. -/
inductive RaceAction where
  | read1 | write1 | read2 | write2
deriving DecidableEq

/-- The effect of one action on the shared state. -/
def raceStep (s : RaceState) : RaceAction → RaceState
  | RaceAction.read1 => { s with reg1 := some s.counter }
  | RaceAction.write1 =>
    match s.reg1 with
    | some v => { s with counter := v + 1 }
    | none => s
  | RaceAction.read2 => { s with reg2 := some s.counter }
  | RaceAction.write2 =>
    match s.reg2 with
    | some v => { s with counter := v + 1 }
    | none => s

/-- Run a schedule (an interleaving of the two workers' actions). -/
def raceRun (acts : List RaceAction) (s : RaceState) : RaceState :=
  acts.foldl raceStep s

/-- Counter zero, neither worker has read yet. -/
def raceInit : RaceState := ⟨0, none, none⟩

/-- A concrete client for the retry-policy witness: a valid token, refreshes
that succeed, and a first listing that fails while the retry succeeds with an
empty account. -/
def oracleRetryOk : ClientOracle :=
  ⟨true, fun _ => Except.ok (),
    fun n => if n = 0 then Except.error "boom" else Except.ok []⟩

/-- Concrete join function for the orphan-deletion witness: plain
concatenation (the theorem holds for every join function). -/
def joinConcat (a b : GoStr) : GoStr := a ++ b

/-- Concrete remote listing for the orphan-deletion witness. -/
def filesW : List FileInfo := [⟨['/', 'a'], 1, 1, false⟩]

/-- Concrete walked local tree for the orphan-deletion witness. -/
def walkedW : List WalkEntry := [⟨['b', '/', 'a'], false⟩, ⟨['b', '/', 'x'], false⟩]

end DropboxBackup

namespace DropboxBackup

theorem shouldExclude_cons (fm : GoStr → GoStr → Bool) (p : GoStr)
    (rest : List GoStr) (path : GoStr) :
    shouldExclude fm (p :: rest) path =
      (ruleMatches fm p path || shouldExclude fm rest path) := by
  simp only [shouldExclude, ruleMatches]
  split_ifs <;> simp [*]

/-- C7: shouldExclude is false on the empty rule set and otherwise the logical
OR of each rule's individual predicate over the configured rules, and the
fast path of filterFiles on an empty rule set is observably identical to
filtering with zero rules removing nothing. -/
theorem shouldExclude_or_of_rules (fm : GoStr → GoStr → Bool)
    (exclude : List GoStr) (path : GoStr) (files : List FileInfo) :
    shouldExclude fm [] path = false ∧
    shouldExclude fm exclude path = exclude.any (fun p => ruleMatches fm p path) ∧
    filterFiles fm [] files = files ∧
    filterFiles fm [] files = files.filter (fun f => ! shouldExclude fm [] f.path) := by
  refine ⟨rfl, ?_, rfl, ?_⟩
  · induction exclude with
    | nil => rfl
    | cons p rest ih => rw [shouldExclude_cons, ih, List.any_cons]
  · show files = files.filter fun f => ! shouldExclude fm [] f.path
    simp [shouldExclude]

/-- C3: the code's `@`-indirection is inert — isInExcludeFile is a stub that
never reads the referenced exclusion file and always answers false, so an
`@`-rule never matches any path and shouldExclude just falls through to the
remaining rules, contradicting the claimed resolution to the file's sub-rules. -/
theorem excludeFile_indirection_noop (fm : GoStr → GoStr → Bool)
    (f : GoStr) (rest : List GoStr) (path : GoStr) :
    shouldExclude fm (('@' :: f) :: rest) path = shouldExclude fm rest path ∧
    isInExcludeFile path f = false := by
  refine ⟨?_, rfl⟩
  simp [shouldExclude, hasPrefix, List.isPrefixOf, isInExcludeFile]

/-- C4: a remote entry whose modification time is the zero value is never
skipped by shouldSkipFile, whatever the local filesystem state at the
candidate path (absent, or present with any size and modification time). -/
theorem shouldSkipFile_zero_modtime (stat : Option LocalStat) (p : GoStr)
    (sz : Nat) (folder : Bool) :
    shouldSkipFile stat ⟨p, sz, 0, folder⟩ = false := by
  cases stat with
  | none => rfl
  | some st => simp [shouldSkipFile]

/-- C5 counterexample: a local file whose size equals the remote size (after
Go's int64 conversion) and whose modification time exactly equals the remote
modification time, with that time being the zero value: shouldSkipFile
returns false, not true as the claim states for every (size, mtime) pair. -/
theorem shouldSkipFile_equal_pair_zero_time_not_skipped :
    shouldSkipFile (some ⟨goInt64OfUInt64 100, 0⟩) ⟨['a'], 100, 0, false⟩ = false := by
  decide

/-- C5 (amended): for every (size, mtime) pair with a non-zero remote
modification time, a local file with equal size (as compared after Go's
int64 conversion of the remote uint64 size) and exactly equal modification
time is skipped. -/
theorem shouldSkipFile_equal_size_mtime (p : GoStr) (sz : Nat) (folder : Bool)
    (lsize rmod : Int) (h0 : rmod ≠ 0) (hsz : lsize = goInt64OfUInt64 sz) :
    shouldSkipFile (some ⟨lsize, rmod⟩) ⟨p, sz, rmod, folder⟩ = true := by
  simp [shouldSkipFile, h0, hsz]

theorem shouldSkipFile_equal_size_mtime_witness :
    shouldSkipFile (some ⟨7, 3⟩) ⟨['a'], 7, 3, false⟩ = true :=
  shouldSkipFile_equal_size_mtime ['a'] 7 false 7 3 (by decide) (by decide)

/-- C6: with a known (non-zero) remote modification time, an existing local
file whose modification time is strictly after the remote one is skipped;
and when no local file exists at the candidate path, shouldSkipFile returns
false. -/
theorem shouldSkipFile_local_newer_and_absent (p : GoStr) (sz : Nat)
    (folder : Bool) (lsize lmod rmod : Int) (h0 : rmod ≠ 0)
    (hafter : rmod < lmod) :
    shouldSkipFile (some ⟨lsize, lmod⟩) ⟨p, sz, rmod, folder⟩ = true ∧
    shouldSkipFile none ⟨p, sz, rmod, folder⟩ = false := by
  refine ⟨?_, rfl⟩
  simp [shouldSkipFile, h0, hafter]

theorem shouldSkipFile_local_newer_and_absent_witness :
    shouldSkipFile (some ⟨5, 10⟩) ⟨['a'], 1, 3, false⟩ = true ∧
    shouldSkipFile none ⟨['a'], 1, 3, false⟩ = false :=
  shouldSkipFile_local_newer_and_absent ['a'] 1 false 5 10 3 (by decide) (by decide)

/-- C2: the unsynchronized `stats.DownloadedFiles++` increments of two
concurrent download workers are not linearizable: under the interleaving
read1, read2, write1, write2 both increments execute yet the counter ends at
1 instead of 2 (a lost update), while the non-interleaved schedule yields 2. -/
theorem stats_increment_lost_update :
    (raceRun [RaceAction.read1, RaceAction.read2, RaceAction.write1,
        RaceAction.write2] raceInit).counter = 1 ∧
    (raceRun [RaceAction.read1, RaceAction.write1, RaceAction.read2,
        RaceAction.write2] raceInit).counter = 2 :=
  ⟨rfl, rfl⟩

theorem fbLoop_exp_le (k : Nat) : ∀ n div exp : Nat,
    n < 1024 ^ (k + 1) → (fbLoop n div exp).2 ≤ exp + k := by
  induction k with
  | zero =>
    intro n div exp h
    have h' : n < 1024 := by simpa using h
    rw [fbLoop, dif_neg (by omega : ¬ 1024 ≤ n)]
    exact Nat.le_refl exp
  | succ k ih =>
    intro n div exp h
    by_cases hn : 1024 ≤ n
    · rw [fbLoop, dif_pos hn]
      have hdiv : n / 1024 < 1024 ^ (k + 1) := by
        rw [Nat.div_lt_iff_lt_mul (by norm_num)]
        calc n < 1024 ^ (k + 1 + 1) := h
          _ = 1024 ^ (k + 1) * 1024 := by rw [pow_succ]
      have := ih (n / 1024) (div * 1024) (exp + 1) hdiv
      omega
    · rw [fbLoop, dif_neg hn]
      omega

/-- C10: formatBytes is total on uint64 — for every value below 2^64 the
computed unit exponent is at most 5, so the index into "KMGTPE" is in bounds
and the function returns a well-formed string (never the panic case). -/
theorem formatBytes_total (bytes : Nat) (h : bytes < 2 ^ 64) :
    (fbLoop (bytes / 1024) 1024 0).2 ≤ 5 ∧ (formatBytes bytes).isSome = true := by
  have hexp : (fbLoop (bytes / 1024) 1024 0).2 ≤ 5 := by
    have h6 : bytes / 1024 < 1024 ^ 6 := by
      rw [Nat.div_lt_iff_lt_mul (by norm_num)]
      calc bytes < 2 ^ 64 := h
        _ ≤ 1024 ^ 6 * 1024 := by norm_num
    simpa using fbLoop_exp_le 5 (bytes / 1024) 1024 0 h6
  refine ⟨hexp, ?_⟩
  rw [formatBytes]
  split_ifs with hb
  · rfl
  · rcases hfb : fbLoop (bytes / 1024) 1024 0 with ⟨d, ex⟩
    rw [hfb] at hexp
    have hlt : ex < unitChars.length := by
      simp only [unitChars, List.length]
      omega
    have hsome : unitChars[ex]? = some unitChars[ex] := List.getElem?_eq_getElem hlt
    simp [hsome]

theorem formatBytes_total_witness :
    (fbLoop ((2 ^ 64 - 1) / 1024) 1024 0).2 ≤ 5 ∧
    (formatBytes (2 ^ 64 - 1)).isSome = true :=
  formatBytes_total (2 ^ 64 - 1) (by norm_num)

end DropboxBackup

namespace DropboxBackup

/-- C9: no file is both downloaded and deleted in a run — every path the
download phase can write is the derived local path of a non-folder entry of
the filtered listing, the orphan phase deletes only walked paths absent from
the set of local paths derived from that same filtered listing, and so no
download target ever appears among the deletions. -/
theorem download_never_deleted (join : GoStr → GoStr → GoStr)
    (backupDir : GoStr) (files : List FileInfo) (walked : List WalkEntry)
    (p : GoStr) (hp : p ∈ downloadPlanPaths join backupDir files) :
    p ∉ orphanDeletions join backupDir files walked := by
  have hmap : p ∈ dropboxFileMap join backupDir files := by
    rcases List.mem_map.mp hp with ⟨f, hf, rfl⟩
    exact List.mem_map.mpr ⟨f, (List.mem_filter.mp hf).1, rfl⟩
  intro hdel
  rcases List.mem_map.mp hdel with ⟨w, hw, hwp⟩
  have hcond := (List.mem_filter.mp hw).2
  simp only [Bool.and_eq_true, Bool.not_eq_true'] at hcond
  have hnc := hcond.2
  rw [hwp] at hnc
  simp at hnc
  exact hnc hmap

theorem download_never_deleted_witness :
    (['b', '/', 'a'] : GoStr) ∉ orphanDeletions joinConcat ['b', '/'] filesW walkedW :=
  download_never_deleted joinConcat ['b', '/'] filesW walkedW ['b', '/', 'a'] (by decide)

/-- C8: when the initial listing fails (and the run reached the listing, the
token-validity pre-phase having passed), Engine.Run makes exactly one more
RefreshToken call; if that refresh fails the phase returns an error with no
second ListAll call, and if it succeeds exactly one retry of ListAll is made,
whose failure yields an error and whose success lets the run proceed with the
retried listing's files. -/
theorem run_listing_retry_policy (c : ClientOracle) (e : String)
    (hpre : c.tokenValid = true ∨ c.refreshOutcome 0 = Except.ok ())
    (h1 : c.listOutcome 0 = Except.error e) :
    (runListingPhase c).refreshCalls = (if c.tokenValid then 0 else 1) + 1 ∧
    (match c.refreshOutcome (if c.tokenValid then 0 else 1) with
     | Except.error _ =>
        (runListingPhase c).listCalls = 1 ∧
        (runListingPhase c).result.toOption = none
     | Except.ok _ =>
        (runListingPhase c).listCalls = 2 ∧
        (match c.listOutcome 1 with
         | Except.error _ => (runListingPhase c).result.toOption = none
         | Except.ok files => (runListingPhase c).result = Except.ok files)) := by
  cases htv : c.tokenValid with
  | true =>
    simp only [runListingPhase, htv, if_true, listingLoop, h1]
    cases hr : c.refreshOutcome 0 with
    | error re => simp [Except.toOption]
    | ok u =>
      cases hl : c.listOutcome 1 with
      | error e2 => simp [Except.toOption]
      | ok files => simp
  | false =>
    rcases hpre with hpre | hpre
    · rw [htv] at hpre
      cases hpre
    · simp only [runListingPhase, htv, if_false, Bool.false_eq_true, hpre,
        listingLoop, h1]
      cases hr : c.refreshOutcome 1 with
      | error re => simp [Except.toOption]
      | ok u =>
        cases hl : c.listOutcome 1 with
        | error e2 => simp [Except.toOption]
        | ok files => simp

theorem run_listing_retry_policy_witness :
    (runListingPhase oracleRetryOk).refreshCalls =
      (if oracleRetryOk.tokenValid then 0 else 1) + 1 ∧
    (match oracleRetryOk.refreshOutcome (if oracleRetryOk.tokenValid then 0 else 1) with
     | Except.error _ =>
        (runListingPhase oracleRetryOk).listCalls = 1 ∧
        (runListingPhase oracleRetryOk).result.toOption = none
     | Except.ok _ =>
        (runListingPhase oracleRetryOk).listCalls = 2 ∧
        (match oracleRetryOk.listOutcome 1 with
         | Except.error _ => (runListingPhase oracleRetryOk).result.toOption = none
         | Except.ok files => (runListingPhase oracleRetryOk).result = Except.ok files)) :=
  run_listing_retry_policy oracleRetryOk "boom" (Or.inl rfl) rfl

end DropboxBackup

namespace DropboxBackup

theorem hasFailed_set_true_iff {l : List WStatus} {i : Nat}
    (hi : l.get? i = some WStatus.pending) :
    (∃ j, (l.set i (WStatus.finished true)).get? j = some (WStatus.finished false)) ↔
    (∃ j, l.get? j = some (WStatus.finished false)) := by
  constructor
  · rintro ⟨j, hj⟩
    by_cases hij : i = j
    · subst hij
      have hlen : i < l.length := (List.get?_eq_some.mp hi).1
      rw [List.get?_set_eq_of_lt _ hlen] at hj
      simp at hj
    · rw [List.get?_set_ne _ _ hij] at hj
      exact ⟨j, hj⟩
  · rintro ⟨j, hj⟩
    have hij : i ≠ j := by
      intro hEq
      subst hEq
      rw [hi] at hj
      simp at hj
    exact ⟨j, by rw [List.get?_set_ne _ _ hij]; exact hj⟩

theorem hasFailed_set_false {l : List WStatus} {i : Nat}
    (hi : l.get? i = some WStatus.pending) :
    ∃ j, (l.set i (WStatus.finished false)).get? j = some (WStatus.finished false) := by
  have hlen : i < l.length := (List.get?_eq_some.mp hi).1
  exact ⟨i, List.get?_set_eq_of_lt _ hlen⟩

theorem dlInv_init (n : Nat) : DLInv (DLInit n) := by
  refine ⟨?_, ?_, ?_⟩
  · intro h
    simp [DLInit] at h
  · intro h
    simp [DLInit] at h
  · intro _
    refine iff_of_true rfl ?_
    rintro ⟨i, hi⟩
    simp only [DLInit] at hi
    have hm := List.get?_mem hi
    rw [List.mem_replicate] at hm
    simp at hm

theorem dlInv_step {s t : DLState} (inv : DLInv s) (h : DLStep s t) : DLInv t := by
  cases h with
  | finishOk i hi =>
    refine ⟨?_, ?_, ?_⟩
    · intro hc
      exact absurd rfl (inv.closedDone hc _ (List.get?_mem hi))
    · intro hr
      exact absurd rfl (inv.closedDone (inv.retNil hr).1 _ (List.get?_mem hi))
    · intro hr
      have base := inv.bufferIff hr
      constructor
      · intro hb hf
        exact (base.mp hb) ((hasFailed_set_true_iff hi).mp hf)
      · intro hnf
        exact base.mpr (fun hf => hnf ((hasFailed_set_true_iff hi).mpr hf))
  | finishErr i hi =>
    refine ⟨?_, ?_, ?_⟩
    · intro hc
      exact absurd rfl (inv.closedDone hc _ (List.get?_mem hi))
    · intro hr
      exact absurd rfl (inv.closedDone (inv.retNil hr).1 _ (List.get?_mem hi))
    · intro _
      refine iff_of_false ?_ ?_
      · simp
      · intro hnf
        exact hnf (hasFailed_set_false hi)
  | closeChan h1 h2 =>
    refine ⟨fun _ => h2, ?_, ?_⟩
    · intro hr
      rw [(inv.retNil hr).1] at h1
      cases h1
    · intro hr
      exact inv.bufferIff hr
  | recvErr i rest h1 h2 =>
    refine ⟨inv.closedDone, ?_, ?_⟩
    · intro hr
      simp at hr
    · intro hr
      rcases hr with hr | hr <;> simp at hr
  | recvClosed h1 h2 h3 =>
    have hnf : ¬ HasFailed s := (inv.bufferIff (Or.inl h1)).mp h2
    exact ⟨inv.closedDone, fun _ => ⟨h3, rfl⟩, fun _ => iff_of_true rfl hnf⟩

theorem dlReach_inv {n : Nat} {s : DLState} (h : DLReach n s) : DLInv s := by
  induction h with
  | refl => exact dlInv_init n
  | tail _ hstep ih => exact dlInv_step ih hstep

/-- C1 (amended): over every schedule of the downloadFiles coordination, the
collecting loop returns nil only if no download failed and every worker had
already finished — equivalently, any run with at least one per-file failure
makes downloadFiles (and so Run) return a non-nil collected error, and no
step of the model aborts a sibling worker; the loop may however return the
first collected error before all in-flight downloads have finished. -/
theorem downloadFiles_nil_return_clean (n : Nat) (s : DLState)
    (h : DLReach n s) (hret : s.ret = some none) :
    ¬ HasFailed s ∧ AllFinished s := by
  have inv := dlReach_inv h
  rcases inv.retNil hret with ⟨hc, hb⟩
  exact ⟨(inv.bufferIff (Or.inr hret)).mp hb, inv.closedDone hc⟩

theorem downloadFiles_nil_return_clean_witness :
    ¬ HasFailed dlNilFinal ∧ AllFinished dlNilFinal := by
  apply downloadFiles_nil_return_clean 1 dlNilFinal ?_ rfl
  have s1 : DLStep (DLInit 1) ⟨[WStatus.finished true], [], false, none⟩ :=
    DLStep.finishOk (DLInit 1) 0 rfl
  have s2 : DLStep ⟨[WStatus.finished true], [], false, none⟩
      ⟨[WStatus.finished true], [], true, none⟩ :=
    DLStep.closeChan _ rfl (by decide)
  have s3 : DLStep ⟨[WStatus.finished true], [], true, none⟩ dlNilFinal :=
    DLStep.recvClosed _ rfl rfl rfl
  exact Relation.ReflTransGen.head s1 (Relation.ReflTransGen.head s2
    (Relation.ReflTransGen.head s3 Relation.ReflTransGen.refl))

/-- C1 counterexample: a reachable execution of two download workers in which
worker 0 failed and the collecting loop has already received and returned its
error while worker 1 is still in flight and the channel is not yet closed —
the errors are not inspected only after all in-flight downloads finish, and
the workers are not all awaited before the error collection is read. -/
theorem downloadFiles_early_error_return :
    DLReach 2 dlEarlyReturn ∧ dlEarlyReturn.ret = some (some 0) ∧
    dlEarlyReturn.workers.get? 1 = some WStatus.pending ∧
    dlEarlyReturn.closed = false := by
  refine ⟨?_, rfl, rfl, rfl⟩
  have s1 : DLStep (DLInit 2)
      ⟨[WStatus.finished false, WStatus.pending], [0], false, none⟩ :=
    DLStep.finishErr (DLInit 2) 0 rfl
  have s2 : DLStep ⟨[WStatus.finished false, WStatus.pending], [0], false, none⟩
      dlEarlyReturn :=
    DLStep.recvErr _ 0 [] rfl rfl
  exact Relation.ReflTransGen.head s1 (Relation.ReflTransGen.head s2
    Relation.ReflTransGen.refl)

end DropboxBackup
